import Mathlib

/-!
Shallow embedding of `src/bioagent/chemistry_tools/evaluator.py`.

The evaluator module wires external chemistry/NLP libraries (selfies, rdkit,
nltk, Levenshtein) into two evaluation loops.  The library primitives are
modelled as an `Oracle` record of abstract functions; the control flow of the
Python module (normalization, null guards, metric dispatch, result-dict
bookkeeping, exception propagation) is embedded faithfully below.

Modelling conventions:
* Python exceptions are modelled by `Except PyErr`; a Python function that
  returns `None` on failure is modelled by `Option`.
* Scores are rationals (`Score`); Python booleans appended to score lists are
  modelled as `1`/`0`.
* `rdkit` structure handles are an abstract type parameter `Mol`.
* Library string metrics (`Levenshtein.distance`, `nltk sentence_bleu` on
  string arguments) do not raise on string inputs, matching the collaborator
  contract ("edit-distance, n-gram-precision ... text functions"), so they are
  total oracle fields.  The caption metric functions may raise, so they return
  `Except`.
* `verbose` printing is I/O only and does not affect the returned table; it is
  omitted.
-/

/-- Scores collected in result lists (Python ints/floats/bools as numbers). -/
abbrev Score := ℚ

/-- Python exceptions relevant to the evaluator module. -/
inductive PyErr where
  | keyError (key : String)
  | typeError
  | argumentError
  | libError (msg : String)
deriving DecidableEq

/-- Did the computation finish without a Python exception? -/
def exOk {α : Type} : Except PyErr α → Bool
  | .ok _ => true
  | .error _ => false

/-- The score an `Except` computation produced (default 0; only used on `ok`). -/
def scoreD (e : Except PyErr Score) : Score :=
  match e with
  | .ok s => s
  | .error _ => 0

/-- A Python value passed in the first (references) position of
`nltk.translate.bleu_score.sentence_bleu`: either a bare string or a list of
reference strings. -/
inductive BleuArg where
  | str (s : String)
  | corpus (refs : List String)
deriving DecidableEq

/-- Abstract interface of the external libraries used by
`MoleculeSMILESEvaluator`, parametrized by the rdkit structure-handle type. -/
structure Oracle (Mol : Type) where
  /-- `selfies.decoder`; raises on undecodable input. -/
  sfDecoder : String → Except PyErr String
  /-- `Chem.MolFromSmiles` on a string: `None` on parse failure. -/
  molFromSmiles : String → Option Mol
  /-- `Chem.MolToSmiles(mol, isomericSmiles=False, canonical=True)`. -/
  molToSmiles : Mol → String
  /-- `Chem.MolToInchi`; may raise. -/
  molToInchi : Mol → Except PyErr String
  /-- `Levenshtein.distance` on two strings (total). -/
  levDist : String → String → Nat
  /-- `sentence_bleu(references, hypothesis)` on string-shaped inputs (total). -/
  sentenceBleu : BleuArg → String → Score
  /-- body of `maccs_similarity` on two non-None mols. -/
  maccsSim : Mol → Mol → Score
  /-- body of `morgan_similarity` on two non-None mols (radius 2). -/
  morganSim : Mol → Mol → Score
  /-- body of `rdk_similarity` on two non-None mols. -/
  rdkSim : Mol → Mol → Score

/-- `exact_match(ot_smi, gt_smi)` (module level): parse both SMILES, compare
InChI inside a bare `try/except` that returns 0 on any failure.  When a parse
returned `None`, `Chem.MolToInchi(None)` raises inside the `try`, so the
result is 0. -/
def exact_match {Mol : Type} (o : Oracle Mol) (ot_smi gt_smi : String) : Score :=
  match o.molFromSmiles ot_smi, o.molFromSmiles gt_smi with
  | some m_out, some m_gt =>
    match o.molToInchi m_out, o.molToInchi m_gt with
    | .ok i_out, .ok i_gt => if i_out = i_gt then 1 else 0
    | _, _ => 0
  | _, _ => 0

/-- `maccs_similarity(ot_m, gt_m)`: fingerprint generation raises when a mol
is `None` (there is no guard in the Python function). -/
def maccs_similarity {Mol : Type} (o : Oracle Mol) :
    Option Mol → Option Mol → Except PyErr Score
  | some ot_m, some gt_m => .ok (o.maccsSim ot_m gt_m)
  | _, _ => .error .argumentError

/-- `morgan_similarity(ot_m, gt_m, radius=2)`: raises when a mol is `None`. -/
def morgan_similarity {Mol : Type} (o : Oracle Mol) :
    Option Mol → Option Mol → Except PyErr Score
  | some ot_m, some gt_m => .ok (o.morganSim ot_m gt_m)
  | _, _ => .error .argumentError

/-- `rdk_similarity(ot_m, gt_m)`: raises when a mol is `None`. -/
def rdk_similarity {Mol : Type} (o : Oracle Mol) :
    Option Mol → Option Mol → Except PyErr Score
  | some ot_m, some gt_m => .ok (o.rdkSim ot_m gt_m)
  | _, _ => .error .argumentError

/-- The `"validity"` entry of `_metric_functions`:
`lambda smiles: smiles is not None` (Python `True`/`False` as `1`/`0`). -/
def validityLambda (smiles : Option String) : Score :=
  if smiles.isSome then 1 else 0

/-- Key set of `MoleculeSMILESEvaluator._metric_functions`. -/
def MoleculeSMILESEvaluator.metricKeys : List String :=
  ["levenshtein", "exact_match", "bleu", "validity",
   "maccs_sims", "morgan_sims", "rdk_sims"]

/-- The default metric list of `MoleculeSMILESEvaluator.evaluate`. -/
def MoleculeSMILESEvaluator.defaultMetrics : List String :=
  ["levenshtein", "exact_match", "bleu", "validity",
   "maccs_sims", "morgan_sims", "rdk_sims"]

/-- `MoleculeSMILESEvaluator.sf_encode`: `sf.decoder` under
`try/except Exception: return None`. -/
def MoleculeSMILESEvaluator.sf_encode {Mol : Type} (o : Oracle Mol)
    (selfies : String) : Option String :=
  match o.sfDecoder selfies with
  | .ok smiles => some smiles
  | .error _ => none

/-- `MoleculeSMILESEvaluator.convert_to_canonical_smiles`: `None` passes
through; otherwise parse and reserialize canonically, `None` on parse
failure. -/
def MoleculeSMILESEvaluator.convert_to_canonical_smiles {Mol : Type}
    (o : Oracle Mol) (smiles : Option String) : Option String :=
  match smiles with
  | none => none
  | some s =>
    match o.molFromSmiles s with
    | some molecule => some (o.molToSmiles molecule)
    | none => none

/-- `MoleculeSMILESEvaluator.build_evaluate_tuple(pred, gt)`. -/
def MoleculeSMILESEvaluator.build_evaluate_tuple {Mol : Type} (o : Oracle Mol)
    (pred gt : String) : Option String × Option String :=
  (MoleculeSMILESEvaluator.convert_to_canonical_smiles o
      (MoleculeSMILESEvaluator.sf_encode o pred),
   MoleculeSMILESEvaluator.convert_to_canonical_smiles o
      (MoleculeSMILESEvaluator.sf_encode o gt))

/-- The pair of arguments `evaluate` passes to `sentence_bleu` for the
`"bleu"` metric (the generic `self._metric_functions[metric](pred, gt)` call):
the normalized prediction string is the first (references) argument and the
normalized reference string is the second (hypothesis) argument. -/
def MoleculeSMILESEvaluator.bleuCall (pred gt : String) : BleuArg × String :=
  (BleuArg.str pred, gt)

/-- Modelled from the spec: the spec describes the `"bleu"` metric as calling
the scorer with "reference as single-reference corpus, prediction as
hypothesis", i.e. first argument `[gt]`, second argument `pred`. -/
def specBleuCall (pred gt : String) : BleuArg × String :=
  (BleuArg.corpus [gt], pred)

/-- The per-metric body of the inner loop of
`MoleculeSMILESEvaluator.evaluate` on an already-normalized pair: the null
guard, the `"validity"` branch, the fingerprint-similarity branch (which
re-parses both canonical strings), and the generic
`self._metric_functions[metric](pred, gt)` dispatch (raising `KeyError` for an
unknown metric name). -/
def MoleculeSMILESEvaluator.scorePair {Mol : Type} (o : Oracle Mol)
    (metric : String) : Option String → Option String → Except PyErr Score
  | none, _ => .ok 0
  | some _, none => .ok 0
  | some pred, some gt =>
    if metric = "validity" then
      -- `self._metric_functions[metric](pred)` with `pred` a non-None string
      .ok (validityLambda (some pred))
    else if metric = "maccs_sims" then
      maccs_similarity o (o.molFromSmiles pred) (o.molFromSmiles gt)
    else if metric = "morgan_sims" then
      morgan_similarity o (o.molFromSmiles pred) (o.molFromSmiles gt)
    else if metric = "rdk_sims" then
      rdk_similarity o (o.molFromSmiles pred) (o.molFromSmiles gt)
    else if metric = "levenshtein" then
      .ok (o.levDist pred gt : Score)
    else if metric = "exact_match" then
      .ok (exact_match o pred gt)
    else if metric = "bleu" then
      .ok (o.sentenceBleu (MoleculeSMILESEvaluator.bleuCall pred gt).1
             (MoleculeSMILESEvaluator.bleuCall pred gt).2)
    else if metric ∈ MoleculeSMILESEvaluator.metricKeys then
      -- unreachable from `evaluate`: a remaining key applied at the wrong arity
      .error .typeError
    else
      .error (.keyError metric)

/-- Score of one raw input pair under one metric: normalize with
`build_evaluate_tuple`, then run the per-metric body. -/
def MoleculeSMILESEvaluator.pairScore {Mol : Type} (o : Oracle Mol)
    (pr : String × String) (metric : String) : Except PyErr Score :=
  MoleculeSMILESEvaluator.scorePair o metric
    (MoleculeSMILESEvaluator.build_evaluate_tuple o pr.1 pr.2).1
    (MoleculeSMILESEvaluator.build_evaluate_tuple o pr.1 pr.2).2

/-- `results[metric].append(s)`: the entry whose key is `metric` gets `s`
appended; all other entries are unchanged. -/
def appendScore (results : List (String × List Score)) (metric : String)
    (s : Score) : List (String × List Score) :=
  results.map (fun kv => if kv.1 = metric then (kv.1, kv.2 ++ [s]) else kv)

/-- First-occurrence deduplication, matching the key order of a Python dict
comprehension over a list with duplicates. -/
def dedupFirst : List String → List String
  | [] => []
  | m :: ms => m :: (dedupFirst ms).filter (fun k => !(k == m))

/-- `results = {metric: [] for metric in metrics}`: one entry per distinct
metric name (first-occurrence order), each mapped to the empty list. -/
def emptyResults (ms : List String) : List (String × List Score) :=
  (dedupFirst ms).map (fun m => (m, ([] : List Score)))

/-- The inner `for metric in metrics` loop on one pair: compute the score,
append it, or propagate the first exception. -/
def metricsLoop (score : String → Except PyErr Score) :
    List String → List (String × List Score) →
    Except PyErr (List (String × List Score))
  | [], results => .ok results
  | m :: ms, results =>
    match score m with
    | .ok s => metricsLoop score ms (appendScore results m s)
    | .error e => .error e

/-- The outer `for pred, gt in zip(predictions, references)` loop. -/
def evalLoop (pairScore : String × String → String → Except PyErr Score)
    (ms : List String) :
    List (String × String) → List (String × List Score) →
    Except PyErr (List (String × List Score))
  | [], results => .ok results
  | pr :: rest, results =>
    match metricsLoop (pairScore pr) ms results with
    | .ok results2 => evalLoop pairScore ms rest results2
    | .error e => .error e

/-- `MoleculeSMILESEvaluator.evaluate(predictions, references, metrics)`:
default the metric list, build the result dict, run the loops.  The returned
table is the Python `results` dict as an association list in key insertion
order. -/
def MoleculeSMILESEvaluator.evaluate {Mol : Type} (o : Oracle Mol)
    (predictions references : List String) (metrics : Option (List String)) :
    Except PyErr (List (String × List Score)) :=
  let ms := metrics.getD MoleculeSMILESEvaluator.defaultMetrics
  evalLoop (MoleculeSMILESEvaluator.pairScore o) ms
    (predictions.zip references) (emptyResults ms)

/-- Abstract interface of the external caption metric functions
(`sentence_bleu` with fixed weights, `rouge_scorer ... .score`,
`meteor_score`), each applied as `f([gt], pred)` and allowed to raise. -/
structure CaptionOracle where
  bleu2 : List String → String → Except PyErr Score
  bleu4 : List String → String → Except PyErr Score
  rouge1 : List String → String → Except PyErr Score
  rouge2 : List String → String → Except PyErr Score
  rougeL : List String → String → Except PyErr Score
  meteor : List String → String → Except PyErr Score

/-- Key set of `MoleculeCaptionEvaluator._metric_functions`. -/
def MoleculeCaptionEvaluator.metricKeys : List String :=
  ["bleu-2", "bleu-4", "rouge-1", "rouge-2", "rouge-l", "meteor"]

/-- The default metric list of `MoleculeCaptionEvaluator.evaluate`. -/
def MoleculeCaptionEvaluator.defaultMetrics : List String :=
  ["bleu-2", "bleu-4", "meteor", "rouge-1", "rouge-2", "rouge-l"]

/-- `MoleculeCaptionEvaluator.build_evaluate_tuple(pred, gt)`: identity. -/
def MoleculeCaptionEvaluator.build_evaluate_tuple (pred gt : String) :
    String × String :=
  (pred, gt)

/-- The per-metric body of `MoleculeCaptionEvaluator.evaluate`:
`self._metric_functions[metric]([gt], pred)` — dict lookup (KeyError on an
unknown name), then the call, with no guard and no catching. -/
def MoleculeCaptionEvaluator.scorePair (o : CaptionOracle) (metric : String)
    (pred gt : String) : Except PyErr Score :=
  if metric = "bleu-2" then o.bleu2 [gt] pred
  else if metric = "bleu-4" then o.bleu4 [gt] pred
  else if metric = "rouge-1" then o.rouge1 [gt] pred
  else if metric = "rouge-2" then o.rouge2 [gt] pred
  else if metric = "rouge-l" then o.rougeL [gt] pred
  else if metric = "meteor" then o.meteor [gt] pred
  else .error (.keyError metric)

/-- Score of one raw caption pair under one metric (normalization is the
identity `build_evaluate_tuple`). -/
def MoleculeCaptionEvaluator.pairScore (o : CaptionOracle)
    (pr : String × String) (metric : String) : Except PyErr Score :=
  MoleculeCaptionEvaluator.scorePair o metric
    (MoleculeCaptionEvaluator.build_evaluate_tuple pr.1 pr.2).1
    (MoleculeCaptionEvaluator.build_evaluate_tuple pr.1 pr.2).2

/-- `MoleculeCaptionEvaluator.evaluate(predictions, references, metrics)`. -/
def MoleculeCaptionEvaluator.evaluate (o : CaptionOracle)
    (predictions references : List String) (metrics : Option (List String)) :
    Except PyErr (List (String × List Score)) :=
  let ms := metrics.getD MoleculeCaptionEvaluator.defaultMetrics
  evalLoop (MoleculeCaptionEvaluator.pairScore o) ms
    (predictions.zip references) (emptyResults ms)

/-- The table an exception-free evaluation run produces: fold every pair and
every metric occurrence, appending the computed score. -/
def runTable (pairScore : String × String → String → Except PyErr Score)
    (ms : List String) (pairs : List (String × String)) :
    List (String × List Score) :=
  pairs.foldl
    (fun r pr => ms.foldl (fun r2 m => appendScore r2 m (scoreD (pairScore pr m))) r)
    (emptyResults ms)

/-- The score list accumulated under key `k`: for each pair in order, one
entry per occurrence of `k` in the metric list. -/
def scoreColumn (pairScore : String × String → String → Except PyErr Score)
    (ms : List String) (k : String) (pairs : List (String × String)) :
    List Score :=
  (pairs.map
    (fun pr => (ms.filter (fun m => m == k)).map (fun m => scoreD (pairScore pr m)))).flatten

/-- The rdkit collaborator contract assumed throughout the module (spec data
model: every canonical structure string is parseable): re-parsing a canonical
SMILES produced by `molToSmiles` succeeds. -/
def RoundTrip {Mol : Type} (o : Oracle Mol) : Prop :=
  ∀ m : Mol, (o.molFromSmiles (o.molToSmiles m)).isSome

/-- `results[k]` viewed as a query: the value stored under key `k` in the
result table. -/
def lookupKey : List (String × List Score) → String → Option (List Score)
  | [], _ => none
  | kv :: t, k => if k = kv.1 then some kv.2 else lookupKey t k

/-- A concrete instantiation of the rdkit/selfies/nltk interface used to
exercise the evaluator on closed inputs: `"bad"` fails to decode, `"X"`
decodes but fails to parse, everything else canonicalizes to `"C"`. -/
def testOracle : Oracle Unit where
  sfDecoder := fun s => if s = "bad" then .error (.libError "sf") else .ok s
  molFromSmiles := fun s => if s = "X" then none else some ()
  molToSmiles := fun _ => "C"
  molToInchi := fun _ => .ok "InChI=1S"
  levDist := fun _ _ => 0
  sentenceBleu := fun _ _ => 1
  maccsSim := fun _ _ => 1
  morganSim := fun _ _ => 1
  rdkSim := fun _ _ => 1

/-- A concrete caption-metric interface where every metric returns 1. -/
def testCapOracle : CaptionOracle where
  bleu2 := fun _ _ => .ok 1
  bleu4 := fun _ _ => .ok 1
  rouge1 := fun _ _ => .ok 1
  rouge2 := fun _ _ => .ok 1
  rougeL := fun _ _ => .ok 1
  meteor := fun _ _ => .ok 1

/-- A concrete caption-metric interface whose meteor function raises, as the
real `meteor_score` does on untokenized string input. -/
def badCapOracle : CaptionOracle where
  bleu2 := fun _ _ => .ok 1
  bleu4 := fun _ _ => .ok 1
  rouge1 := fun _ _ => .ok 1
  rouge2 := fun _ _ => .ok 1
  rougeL := fun _ _ => .ok 1
  meteor := fun _ _ => .error .typeError

/-! ### Bookkeeping lemmas about the result table -/

theorem appendScore_keys (r : List (String × List Score)) (m : String)
    (s : Score) : (appendScore r m s).map Prod.fst = r.map Prod.fst := by
  induction r with
  | nil => rfl
  | cons kv t ih =>
    by_cases h : kv.1 = m <;> simp [appendScore, h] <;>
      simpa [appendScore] using ih

theorem appendScore_cons (kv : String × List Score)
    (t : List (String × List Score)) (m : String) (s : Score) :
    appendScore (kv :: t) m s =
      (if kv.1 = m then (kv.1, kv.2 ++ [s]) else kv) :: appendScore t m s :=
  rfl

theorem lookupKey_appendScore (r : List (String × List Score)) (m k : String)
    (s : Score) :
    lookupKey (appendScore r m s) k =
      if k = m then (lookupKey r k).map (fun v => v ++ [s])
      else lookupKey r k := by
  induction r with
  | nil => by_cases h : k = m <;> simp [appendScore, lookupKey, h]
  | cons kv t ih =>
    obtain ⟨a, v⟩ := kv
    rw [appendScore_cons]
    by_cases ham : a = m
    · subst ham
      by_cases hka : k = a
      · subst hka; simp [lookupKey]
      · simp [lookupKey, hka, ih]
    · by_cases hka : k = a
      · subst hka
        have hkm : ¬k = m := ham
        simp [lookupKey, ham, hkm]
      · simp [lookupKey, hka, ham, ih]

theorem mem_dedupFirst (ms : List String) (k : String) :
    k ∈ dedupFirst ms ↔ k ∈ ms := by
  induction ms with
  | nil => simp [dedupFirst]
  | cons m t ih =>
    by_cases h : k = m
    · subst h; simp [dedupFirst]
    · simp [dedupFirst, List.mem_filter, h, ih]

theorem nodup_dedupFirst (ms : List String) : (dedupFirst ms).Nodup := by
  induction ms with
  | nil => simp [dedupFirst]
  | cons m t ih =>
    refine List.nodup_cons.mpr ⟨?_, ih.filter _⟩
    intro hmem
    have := (List.mem_filter.mp hmem).2
    simp at this

theorem lookupKey_emptyResults (ms : List String) (k : String) :
    lookupKey (emptyResults ms) k = if k ∈ ms then some [] else none := by
  have main : ∀ l : List String,
      lookupKey (l.map (fun m => (m, ([] : List Score)))) k =
        if k ∈ l then some [] else none := by
    intro l
    induction l with
    | nil => simp [lookupKey]
    | cons a t ih =>
      by_cases h : k = a
      · subst h; simp [lookupKey]
      · simp [lookupKey, h, ih]
  rw [emptyResults, main]
  by_cases h : k ∈ ms <;> simp [mem_dedupFirst, h]

theorem emptyResults_keys (ms : List String) :
    (emptyResults ms).map Prod.fst = dedupFirst ms := by
  rw [emptyResults, List.map_map]
  exact List.map_id _

/-! ### Lemmas about the evaluation loops -/

theorem metricsLoop_ok (score : String → Except PyErr Score) (ms : List String) :
    ∀ results : List (String × List Score),
      (∀ m ∈ ms, exOk (score m) = true) →
      metricsLoop score ms results =
        .ok (ms.foldl (fun r2 m => appendScore r2 m (scoreD (score m))) results) := by
  induction ms with
  | nil => intro results _; rfl
  | cons m t ih =>
    intro results h
    have hm : exOk (score m) = true := h m (List.mem_cons_self m t)
    cases hs : score m with
    | ok s =>
      rw [metricsLoop, hs]
      have : scoreD (score m) = s := by rw [hs]; rfl
      rw [List.foldl_cons, this]
      exact ih _ (fun m2 hm2 => h m2 (List.mem_cons_of_mem m hm2))
    | error e => rw [hs] at hm; simp [exOk] at hm

theorem metricsLoop_error (score : String → Except PyErr Score)
    (ms : List String) :
    ∀ results : List (String × List Score),
      (∃ m ∈ ms, exOk (score m) = false) →
      ∃ e, metricsLoop score ms results = .error e := by
  induction ms with
  | nil => intro _ h; simp at h
  | cons m t ih =>
    intro results h
    cases hs : score m with
    | error e => exact ⟨e, by rw [metricsLoop, hs]⟩
    | ok s =>
      rw [metricsLoop, hs]
      obtain ⟨m2, hm2, hbad⟩ := h
      rcases List.mem_cons.mp hm2 with heq | hmem
      · subst heq; rw [hs] at hbad; simp [exOk] at hbad
      · exact ih _ ⟨m2, hmem, hbad⟩

theorem metricsLoop_error_name (score : String → Except PyErr Score)
    (name : String) (e0 : PyErr) (ms : List String)
    (hfail : score name = .error e0)
    (hok : ∀ m ∈ ms, m ≠ name → exOk (score m) = true)
    (hmem : name ∈ ms) :
    ∀ results : List (String × List Score),
      metricsLoop score ms results = .error e0 := by
  induction ms with
  | nil => simp at hmem
  | cons m t ih =>
    intro results
    by_cases hm : m = name
    · subst hm; rw [metricsLoop, hfail]
    · have := hok m (List.mem_cons_self m t) hm
      cases hs : score m with
      | error e => rw [hs] at this; simp [exOk] at this
      | ok s =>
        rw [metricsLoop, hs]
        have hmem2 : name ∈ t := by
          rcases List.mem_cons.mp hmem with heq | h2
          · exact absurd heq.symm hm
          · exact h2
        exact ih (fun m2 h2 => hok m2 (List.mem_cons_of_mem m h2)) hmem2 _

theorem evalLoop_ok (ps : String × String → String → Except PyErr Score)
    (ms : List String) (pairs : List (String × String)) :
    ∀ results : List (String × List Score),
      (∀ pr ∈ pairs, ∀ m ∈ ms, exOk (ps pr m) = true) →
      evalLoop ps ms pairs results =
        .ok (pairs.foldl
          (fun r pr => ms.foldl (fun r2 m => appendScore r2 m (scoreD (ps pr m))) r)
          results) := by
  induction pairs with
  | nil => intro results _; rfl
  | cons pr rest ih =>
    intro results h
    have hstep := metricsLoop_ok (ps pr) ms results
      (h pr (List.mem_cons_self pr rest))
    rw [evalLoop, hstep, List.foldl_cons]
    exact ih _ (fun pr2 h2 => h pr2 (List.mem_cons_of_mem pr h2))

theorem evalLoop_error (ps : String × String → String → Except PyErr Score)
    (ms : List String) (pairs : List (String × String)) :
    ∀ results : List (String × List Score),
      (∃ pr ∈ pairs, ∃ m ∈ ms, exOk (ps pr m) = false) →
      ∃ e, evalLoop ps ms pairs results = .error e := by
  induction pairs with
  | nil => intro _ h; simp at h
  | cons pr rest ih =>
    intro results h
    by_cases hfirst : ∃ m ∈ ms, exOk (ps pr m) = false
    · obtain ⟨e, he⟩ := metricsLoop_error (ps pr) ms results hfirst
      exact ⟨e, by rw [evalLoop, he]⟩
    · have hall : ∀ m ∈ ms, exOk (ps pr m) = true := by
        intro m hm
        rcases Bool.eq_false_or_eq_true (exOk (ps pr m)) with hb | hb
        · exact hb
        · exact absurd ⟨m, hm, hb⟩ hfirst
      rw [evalLoop, metricsLoop_ok (ps pr) ms results hall]
      obtain ⟨pr2, hpr2, hrest⟩ := h
      rcases List.mem_cons.mp hpr2 with heq | hmem
      · subst heq
        obtain ⟨m, hm, hbad⟩ := hrest
        exact absurd ⟨m, hm, hbad⟩ hfirst
      · exact ih _ ⟨pr2, hmem, hrest⟩

theorem lookupKey_metricsFold (f : String → Score) (ms : List String) :
    ∀ (r : List (String × List Score)) (k : String),
      lookupKey (ms.foldl (fun r2 m => appendScore r2 m (f m)) r) k =
        (lookupKey r k).map
          (fun v => v ++ (ms.filter (fun m => m == k)).map f) := by
  induction ms with
  | nil =>
    intro r k
    cases h : lookupKey r k <;> simp [h]
  | cons m t ih =>
    intro r k
    rw [List.foldl_cons, ih, lookupKey_appendScore]
    by_cases hkm : k = m
    · subst hkm
      simp only [if_pos rfl, List.filter_cons, beq_self_eq_true, if_true,
        List.map_cons, Option.map_map]
      cases h : lookupKey r k <;> simp [h, Function.comp, List.append_assoc]
    · have hbeq : (m == k) = false := beq_eq_false_iff_ne.mpr (fun h => hkm h.symm)
      simp only [if_neg hkm, List.filter_cons, hbeq]
      simp

theorem lookupKey_pairsFold (ps : String × String → String → Except PyErr Score)
    (ms : List String) (pairs : List (String × String)) :
    ∀ (r : List (String × List Score)) (k : String),
      lookupKey
        (pairs.foldl
          (fun r pr => ms.foldl (fun r2 m => appendScore r2 m (scoreD (ps pr m))) r)
          r) k =
        (lookupKey r k).map (fun v => v ++ scoreColumn ps ms k pairs) := by
  induction pairs with
  | nil =>
    intro r k
    cases h : lookupKey r k <;> simp [h, scoreColumn]
  | cons pr rest ih =>
    intro r k
    rw [List.foldl_cons, ih, lookupKey_metricsFold]
    have hcol : scoreColumn ps ms k (pr :: rest) =
        (ms.filter (fun m => m == k)).map (fun m => scoreD (ps pr m)) ++
          scoreColumn ps ms k rest := by
      simp [scoreColumn]
    rw [hcol]
    cases h : lookupKey r k <;> simp [h, List.append_assoc]

theorem lookupKey_runTable (ps : String × String → String → Except PyErr Score)
    (ms : List String) (pairs : List (String × String)) (k : String) :
    lookupKey (runTable ps ms pairs) k =
      if k ∈ ms then some (scoreColumn ps ms k pairs) else none := by
  rw [runTable, lookupKey_pairsFold, lookupKey_emptyResults]
  by_cases h : k ∈ ms <;> simp [h]

theorem keys_metricsFold (f : String → Score) (ms : List String) :
    ∀ r : List (String × List Score),
      (ms.foldl (fun r2 m => appendScore r2 m (f m)) r).map Prod.fst =
        r.map Prod.fst := by
  induction ms with
  | nil => intro r; rfl
  | cons m t ih => intro r; rw [List.foldl_cons, ih, appendScore_keys]

theorem keys_runTable (ps : String × String → String → Except PyErr Score)
    (ms : List String) (pairs : List (String × String)) :
    (runTable ps ms pairs).map Prod.fst = dedupFirst ms := by
  rw [runTable]
  have main : ∀ (pairs2 : List (String × String)) (r : List (String × List Score)),
      (pairs2.foldl
        (fun r pr => ms.foldl (fun r2 m => appendScore r2 m (scoreD (ps pr m))) r)
        r).map Prod.fst = r.map Prod.fst := by
    intro pairs2
    induction pairs2 with
    | nil => intro r; rfl
    | cons pr rest ih => intro r; rw [List.foldl_cons, ih, keys_metricsFold]
  rw [main, emptyResults_keys]

theorem filter_beq_eq_replicate (l : List String) (k : String) :
    l.filter (fun m => m == k) = List.replicate (l.count k) k := by
  induction l with
  | nil => rfl
  | cons a t ih =>
    by_cases h : a = k
    · subst h
      simp [List.filter_cons, List.count_cons, ih, List.replicate_succ]
    · have hb : (a == k) = false := beq_eq_false_iff_ne.mpr h
      simp [List.filter_cons, hb, List.count_cons, ih]

theorem scoreColumn_length (ps : String × String → String → Except PyErr Score)
    (ms : List String) (k : String) (pairs : List (String × String)) :
    (scoreColumn ps ms k pairs).length = ms.count k * pairs.length := by
  induction pairs with
  | nil => simp [scoreColumn]
  | cons pr rest ih =>
    have hcol : scoreColumn ps ms k (pr :: rest) =
        (ms.filter (fun m => m == k)).map (fun m => scoreD (ps pr m)) ++
          scoreColumn ps ms k rest := by
      simp [scoreColumn]
    have hlen : ((ms.filter (fun m => m == k)).map
        (fun m => scoreD (ps pr m))).length = ms.count k := by
      rw [filter_beq_eq_replicate]; simp
    rw [hcol, List.length_append, hlen, ih, List.length_cons]
    ring

theorem flatten_map_singleton {α β : Type} (g : α → β) (l : List α) :
    (l.map (fun x => [g x])).flatten = l.map g := by
  induction l with
  | nil => rfl
  | cons a t ih => simp [ih]

theorem scoreColumn_of_nodup (ps : String × String → String → Except PyErr Score)
    (ms : List String) (k : String) (pairs : List (String × String))
    (hnd : ms.Nodup) (hk : k ∈ ms) :
    scoreColumn ps ms k pairs = pairs.map (fun pr => scoreD (ps pr k)) := by
  have h1 : ms.filter (fun m => m == k) = [k] := by
    rw [filter_beq_eq_replicate, List.count_eq_one_of_mem hnd hk]
    rfl
  rw [scoreColumn]
  simp only [h1, List.map_cons, List.map_nil]
  exact flatten_map_singleton (fun pr => scoreD (ps pr k)) pairs

theorem scoreColumn_all_zero (ps : String × String → String → Except PyErr Score)
    (ms : List String) (k : String) (pairs : List (String × String))
    (h : ∀ pr ∈ pairs, ps pr k = .ok 0) :
    scoreColumn ps ms k pairs = List.replicate (ms.count k * pairs.length) 0 := by
  induction pairs with
  | nil => simp [scoreColumn]
  | cons pr rest ih =>
    have hcol : scoreColumn ps ms k (pr :: rest) =
        (ms.filter (fun m => m == k)).map (fun m => scoreD (ps pr m)) ++
          scoreColumn ps ms k rest := by
      simp [scoreColumn]
    have hz : scoreD (ps pr k) = 0 := by
      rw [h pr (List.mem_cons_self pr rest)]; rfl
    have hchunk : (ms.filter (fun m => m == k)).map (fun m => scoreD (ps pr m)) =
        List.replicate (ms.count k) (0 : Score) := by
      rw [filter_beq_eq_replicate, List.map_replicate, hz]
    rw [hcol, hchunk, ih (fun pr2 h2 => h pr2 (List.mem_cons_of_mem pr h2)),
      List.append_replicate_replicate, List.length_cons]
    have : ms.count k + ms.count k * rest.length =
        ms.count k * (rest.length + 1) := by ring
    rw [this]

theorem evalLoop_error_name (ps : String × String → String → Except PyErr Score)
    (name : String) (e0 : PyErr) (ms : List String)
    (pairs : List (String × String))
    (hok : ∀ pr ∈ pairs, ∀ m ∈ ms, m ≠ name → exOk (ps pr m) = true)
    (hname : ∀ pr ∈ pairs, ps pr name = .ok 0 ∨ ps pr name = .error e0)
    (hmem : name ∈ ms)
    (hex : ∃ pr ∈ pairs, ps pr name = .error e0) :
    ∀ results : List (String × List Score),
      evalLoop ps ms pairs results = .error e0 := by
  induction pairs with
  | nil => obtain ⟨pr, hpr, _⟩ := hex; simp at hpr
  | cons pr rest ih =>
    intro results
    rcases hname pr (List.mem_cons_self pr rest) with hok0 | herr
    · have hall : ∀ m ∈ ms, exOk (ps pr m) = true := by
        intro m hm
        by_cases hmn : m = name
        · subst hmn; rw [hok0]; rfl
        · exact hok pr (List.mem_cons_self pr rest) m hm hmn
      rw [evalLoop, metricsLoop_ok (ps pr) ms results hall]
      have hex2 : ∃ pr2 ∈ rest, ps pr2 name = .error e0 := by
        obtain ⟨pr2, hpr2, herr2⟩ := hex
        rcases List.mem_cons.mp hpr2 with heq | hmem2
        · subst heq; rw [hok0] at herr2; exact absurd herr2 (by simp)
        · exact ⟨pr2, hmem2, herr2⟩
      exact ih (fun pr2 h2 => hok pr2 (List.mem_cons_of_mem pr h2))
        (fun pr2 h2 => hname pr2 (List.mem_cons_of_mem pr h2)) hex2 _
    · rw [evalLoop, metricsLoop_error_name (ps pr) name e0 ms herr
        (fun m hm hmn => hok pr (List.mem_cons_self pr rest) m hm hmn) hmem]

/-! ### Per-pair behavior of the SMILES evaluator -/

theorem scorePair_null {Mol : Type} (o : Oracle Mol) (metric : String)
    (p g : Option String) (h : p = none ∨ g = none) :
    MoleculeSMILESEvaluator.scorePair o metric p g = .ok 0 := by
  cases p with
  | none => rfl
  | some a =>
    cases g with
    | none => rfl
    | some b => rcases h with h | h <;> simp at h

theorem pairScore_null {Mol : Type} (o : Oracle Mol) (pr : String × String)
    (metric : String)
    (h : (MoleculeSMILESEvaluator.build_evaluate_tuple o pr.1 pr.2).1 = none ∨
         (MoleculeSMILESEvaluator.build_evaluate_tuple o pr.1 pr.2).2 = none) :
    MoleculeSMILESEvaluator.pairScore o pr metric = .ok 0 :=
  scorePair_null o metric _ _ h

theorem pairScore_eq_scorePair {Mol : Type} (o : Oracle Mol)
    (pr : String × String) (metric : String) (p g : String)
    (h1 : (MoleculeSMILESEvaluator.build_evaluate_tuple o pr.1 pr.2).1 = some p)
    (h2 : (MoleculeSMILESEvaluator.build_evaluate_tuple o pr.1 pr.2).2 = some g) :
    MoleculeSMILESEvaluator.pairScore o pr metric =
      MoleculeSMILESEvaluator.scorePair o metric (some p) (some g) := by
  rw [MoleculeSMILESEvaluator.pairScore, h1, h2]

theorem convert_eq_some {Mol : Type} (o : Oracle Mol) (x : Option String)
    (p : String)
    (h : MoleculeSMILESEvaluator.convert_to_canonical_smiles o x = some p) :
    ∃ mol : Mol, p = o.molToSmiles mol := by
  cases x with
  | none => simp [MoleculeSMILESEvaluator.convert_to_canonical_smiles] at h
  | some s =>
    cases hm : o.molFromSmiles s with
    | none =>
      rw [MoleculeSMILESEvaluator.convert_to_canonical_smiles, hm] at h
      simp at h
    | some mol =>
      rw [MoleculeSMILESEvaluator.convert_to_canonical_smiles, hm] at h
      simp at h
      exact ⟨mol, h.symm⟩

theorem pairScore_default_ok {Mol : Type} (o : Oracle Mol) (hrt : RoundTrip o)
    (pr : String × String) (m : String)
    (hm : m ∈ MoleculeSMILESEvaluator.defaultMetrics) :
    exOk (MoleculeSMILESEvaluator.pairScore o pr m) = true := by
  rcases h1 : (MoleculeSMILESEvaluator.build_evaluate_tuple o pr.1 pr.2).1 with _ | p
  · rw [pairScore_null o pr m (Or.inl h1)]; rfl
  rcases h2 : (MoleculeSMILESEvaluator.build_evaluate_tuple o pr.1 pr.2).2 with _ | g
  · rw [pairScore_null o pr m (Or.inr h2)]; rfl
  have h1c : MoleculeSMILESEvaluator.convert_to_canonical_smiles o
      (MoleculeSMILESEvaluator.sf_encode o pr.1) = some p := h1
  have h2c : MoleculeSMILESEvaluator.convert_to_canonical_smiles o
      (MoleculeSMILESEvaluator.sf_encode o pr.2) = some g := h2
  obtain ⟨m1, hp⟩ := convert_eq_some o _ p h1c
  obtain ⟨m2, hg⟩ := convert_eq_some o _ g h2c
  have hps : (o.molFromSmiles p).isSome = true := by rw [hp]; exact hrt m1
  have hgs : (o.molFromSmiles g).isSome = true := by rw [hg]; exact hrt m2
  obtain ⟨mp, hmp⟩ := Option.isSome_iff_exists.mp hps
  obtain ⟨mg, hmg⟩ := Option.isSome_iff_exists.mp hgs
  rw [pairScore_eq_scorePair o pr m p g h1 h2]
  fin_cases hm <;>
    simp [MoleculeSMILESEvaluator.scorePair, maccs_similarity, morgan_similarity,
      rdk_similarity, hmp, hmg, exOk]

theorem pairScore_unknown {Mol : Type} (o : Oracle Mol) (pr : String × String)
    (name : String) (hname : name ∉ MoleculeSMILESEvaluator.metricKeys)
    (p g : String)
    (h1 : (MoleculeSMILESEvaluator.build_evaluate_tuple o pr.1 pr.2).1 = some p)
    (h2 : (MoleculeSMILESEvaluator.build_evaluate_tuple o pr.1 pr.2).2 = some g) :
    MoleculeSMILESEvaluator.pairScore o pr name = .error (.keyError name) := by
  rw [pairScore_eq_scorePair o pr name p g h1 h2]
  simp [MoleculeSMILESEvaluator.metricKeys] at hname
  obtain ⟨ha, hb, hc, hd, he, hf, hg2⟩ := hname
  simp [MoleculeSMILESEvaluator.scorePair, MoleculeSMILESEvaluator.metricKeys,
    ha, hb, hc, hd, he, hf, hg2]

/-! ### Master run lemmas for both evaluators -/

theorem smiles_evaluate_ok {Mol : Type} (o : Oracle Mol)
    (preds refs ms : List String)
    (hok : ∀ pr ∈ preds.zip refs, ∀ m ∈ ms,
      exOk (MoleculeSMILESEvaluator.pairScore o pr m) = true) :
    MoleculeSMILESEvaluator.evaluate o preds refs (some ms) =
      .ok (runTable (MoleculeSMILESEvaluator.pairScore o) ms (preds.zip refs)) :=
  evalLoop_ok (MoleculeSMILESEvaluator.pairScore o) ms (preds.zip refs)
    (emptyResults ms) hok

theorem caption_evaluate_ok (o : CaptionOracle) (preds refs ms : List String)
    (hok : ∀ pr ∈ preds.zip refs, ∀ m ∈ ms,
      exOk (MoleculeCaptionEvaluator.pairScore o pr m) = true) :
    MoleculeCaptionEvaluator.evaluate o preds refs (some ms) =
      .ok (runTable (MoleculeCaptionEvaluator.pairScore o) ms (preds.zip refs)) :=
  evalLoop_ok (MoleculeCaptionEvaluator.pairScore o) ms (preds.zip refs)
    (emptyResults ms) hok

theorem smiles_allOk_of_good {Mol : Type} (o : Oracle Mol)
    (preds refs ms : List String)
    (hok : ∀ pr ∈ preds.zip refs,
      (MoleculeSMILESEvaluator.build_evaluate_tuple o pr.1 pr.2).1.isSome = true →
      (MoleculeSMILESEvaluator.build_evaluate_tuple o pr.1 pr.2).2.isSome = true →
      ∀ m ∈ ms, exOk (MoleculeSMILESEvaluator.pairScore o pr m) = true) :
    ∀ pr ∈ preds.zip refs, ∀ m ∈ ms,
      exOk (MoleculeSMILESEvaluator.pairScore o pr m) = true := by
  intro pr hpr m hm
  rcases hb1 : (MoleculeSMILESEvaluator.build_evaluate_tuple o pr.1 pr.2).1 with _ | p
  · rw [pairScore_null o pr m (Or.inl hb1)]; rfl
  rcases hb2 : (MoleculeSMILESEvaluator.build_evaluate_tuple o pr.1 pr.2).2 with _ | g
  · rw [pairScore_null o pr m (Or.inr hb2)]; rfl
  exact hok pr hpr (by rw [hb1]; rfl) (by rw [hb2]; rfl) m hm

/-! ### Claims -/

/-- Claim C1: for every (prediction, reference) pair given to
`MoleculeSMILESEvaluator.evaluate`, if normalization (`build_evaluate_tuple`)
yields null for the prediction or for the reference, then for every requested
metric the score appended for that pair is exactly 0 — no exception is raised
and no pair is skipped, so per-metric lists stay aligned across pairs.  (Pairs
that normalize on both sides are assumed to score without a library
exception.) -/
theorem c1_null_pairs_score_zero {Mol : Type} (o : Oracle Mol)
    (preds refs ms : List String) (hnd : ms.Nodup)
    (hok : ∀ pr ∈ preds.zip refs,
      (MoleculeSMILESEvaluator.build_evaluate_tuple o pr.1 pr.2).1.isSome = true →
      (MoleculeSMILESEvaluator.build_evaluate_tuple o pr.1 pr.2).2.isSome = true →
      ∀ m ∈ ms, exOk (MoleculeSMILESEvaluator.pairScore o pr m) = true) :
    MoleculeSMILESEvaluator.evaluate o preds refs (some ms) =
      .ok (runTable (MoleculeSMILESEvaluator.pairScore o) ms (preds.zip refs)) ∧
    ∀ k ∈ ms, ∃ col,
      lookupKey (runTable (MoleculeSMILESEvaluator.pairScore o) ms
        (preds.zip refs)) k = some col ∧
      col.length = (preds.zip refs).length ∧
      ∀ (i : ℕ) (hi : i < (preds.zip refs).length) (hci : i < col.length),
        ((MoleculeSMILESEvaluator.build_evaluate_tuple o
            ((preds.zip refs)[i]).1 ((preds.zip refs)[i]).2).1 = none ∨
         (MoleculeSMILESEvaluator.build_evaluate_tuple o
            ((preds.zip refs)[i]).1 ((preds.zip refs)[i]).2).2 = none) →
        col[i] = 0 := by
  have hall := smiles_allOk_of_good o preds refs ms hok
  refine ⟨smiles_evaluate_ok o preds refs ms hall, ?_⟩
  intro k hk
  refine ⟨(preds.zip refs).map
    (fun pr => scoreD (MoleculeSMILESEvaluator.pairScore o pr k)), ?_, ?_, ?_⟩
  · rw [lookupKey_runTable, if_pos hk,
      scoreColumn_of_nodup (MoleculeSMILESEvaluator.pairScore o) ms k
        (preds.zip refs) hnd hk]
  · simp
  · intro i hi hci hfail
    simp only [List.getElem_map]
    rw [pairScore_null o ((preds.zip refs)[i]) k hfail]
    rfl

/-- Claim C2: for all non-empty predictions and references lists of equal
length, `evaluate` (on either evaluator, for any duplicate-free metric list
whose per-pair scores raise no exception) returns a table in which every
requested metric is mapped to the list of per-pair scores in input order,
whose length equals the number of input pairs. -/
theorem c2_table_lengths :
    (∀ {Mol : Type} (o : Oracle Mol) (preds refs ms : List String),
      preds ≠ [] → preds.length = refs.length → ms.Nodup →
      (∀ pr ∈ preds.zip refs, ∀ m ∈ ms,
        exOk (MoleculeSMILESEvaluator.pairScore o pr m) = true) →
      MoleculeSMILESEvaluator.evaluate o preds refs (some ms) =
        .ok (runTable (MoleculeSMILESEvaluator.pairScore o) ms (preds.zip refs)) ∧
      ∀ k ∈ ms,
        lookupKey (runTable (MoleculeSMILESEvaluator.pairScore o) ms
          (preds.zip refs)) k =
          some ((preds.zip refs).map
            (fun pr => scoreD (MoleculeSMILESEvaluator.pairScore o pr k))) ∧
        ((preds.zip refs).map
          (fun pr => scoreD (MoleculeSMILESEvaluator.pairScore o pr k))).length =
          preds.length) ∧
    (∀ (o : CaptionOracle) (preds refs ms : List String),
      preds ≠ [] → preds.length = refs.length → ms.Nodup →
      (∀ pr ∈ preds.zip refs, ∀ m ∈ ms,
        exOk (MoleculeCaptionEvaluator.pairScore o pr m) = true) →
      MoleculeCaptionEvaluator.evaluate o preds refs (some ms) =
        .ok (runTable (MoleculeCaptionEvaluator.pairScore o) ms (preds.zip refs)) ∧
      ∀ k ∈ ms,
        lookupKey (runTable (MoleculeCaptionEvaluator.pairScore o) ms
          (preds.zip refs)) k =
          some ((preds.zip refs).map
            (fun pr => scoreD (MoleculeCaptionEvaluator.pairScore o pr k))) ∧
        ((preds.zip refs).map
          (fun pr => scoreD (MoleculeCaptionEvaluator.pairScore o pr k))).length =
          preds.length) := by
  constructor
  · intro Mol o preds refs ms hne hlen hnd hok
    refine ⟨smiles_evaluate_ok o preds refs ms hok, ?_⟩
    intro k hk
    refine ⟨?_, ?_⟩
    · rw [lookupKey_runTable, if_pos hk,
        scoreColumn_of_nodup (MoleculeSMILESEvaluator.pairScore o) ms k
          (preds.zip refs) hnd hk]
    · simp [List.length_zip, hlen]
  · intro o preds refs ms hne hlen hnd hok
    refine ⟨caption_evaluate_ok o preds refs ms hok, ?_⟩
    intro k hk
    refine ⟨?_, ?_⟩
    · rw [lookupKey_runTable, if_pos hk,
        scoreColumn_of_nodup (MoleculeCaptionEvaluator.pairScore o) ms k
          (preds.zip refs) hnd hk]
    · simp [List.length_zip, hlen]

/-- Claim C3: under the rdkit round-trip contract (canonical SMILES reparse),
no exception escapes `MoleculeSMILESEvaluator.evaluate` with the default
metric set: every decode, parse or conversion failure degrades to a 0 score
via the null guard or the `exact_match` try/except, and the call returns a
full table with one entry per pair for every default metric. -/
theorem c3_no_exception_default {Mol : Type} (o : Oracle Mol)
    (hrt : RoundTrip o) (preds refs : List String) :
    MoleculeSMILESEvaluator.evaluate o preds refs none =
      .ok (runTable (MoleculeSMILESEvaluator.pairScore o)
        MoleculeSMILESEvaluator.defaultMetrics (preds.zip refs)) ∧
    ∀ k ∈ MoleculeSMILESEvaluator.defaultMetrics, ∃ col,
      lookupKey (runTable (MoleculeSMILESEvaluator.pairScore o)
        MoleculeSMILESEvaluator.defaultMetrics (preds.zip refs)) k = some col ∧
      col.length = (preds.zip refs).length := by
  have hall : ∀ pr ∈ preds.zip refs, ∀ m ∈ MoleculeSMILESEvaluator.defaultMetrics,
      exOk (MoleculeSMILESEvaluator.pairScore o pr m) = true :=
    fun pr _ m hm => pairScore_default_ok o hrt pr m hm
  have hnd : MoleculeSMILESEvaluator.defaultMetrics.Nodup := by decide
  constructor
  · exact evalLoop_ok (MoleculeSMILESEvaluator.pairScore o)
      MoleculeSMILESEvaluator.defaultMetrics (preds.zip refs)
      (emptyResults MoleculeSMILESEvaluator.defaultMetrics) hall
  · intro k hk
    refine ⟨(preds.zip refs).map
      (fun pr => scoreD (MoleculeSMILESEvaluator.pairScore o pr k)), ?_, ?_⟩
    · rw [lookupKey_runTable, if_pos hk,
        scoreColumn_of_nodup (MoleculeSMILESEvaluator.pairScore o) _ k
          (preds.zip refs) hnd hk]
    · simp

/-- Claim C4: the validity metric of `MoleculeSMILESEvaluator` scores a pair 1
exactly when both sides of the pair normalize to non-null strings and 0
otherwise; because of the shared null guard it never inspects the raw
prediction, degenerating to "normalization succeeded". -/
theorem c4_validity_degenerate {Mol : Type} (o : Oracle Mol)
    (pr : String × String) :
    MoleculeSMILESEvaluator.pairScore o pr "validity" =
      .ok (if (MoleculeSMILESEvaluator.build_evaluate_tuple o pr.1 pr.2).1.isSome &&
              (MoleculeSMILESEvaluator.build_evaluate_tuple o pr.1 pr.2).2.isSome
           then 1 else 0) := by
  rcases h1 : (MoleculeSMILESEvaluator.build_evaluate_tuple o pr.1 pr.2).1 with _ | p
  · rw [pairScore_null o pr "validity" (Or.inl h1)]
    rfl
  rcases h2 : (MoleculeSMILESEvaluator.build_evaluate_tuple o pr.1 pr.2).2 with _ | g
  · rw [pairScore_null o pr "validity" (Or.inr h2)]
    rfl
  rw [pairScore_eq_scorePair o pr "validity" p g h1 h2]
  simp [MoleculeSMILESEvaluator.scorePair, validityLambda]

/-- Claim C5 counterexample: at the concrete normalized pair ("P", "G") the
argument pair the evaluator passes to sentence_bleu differs from the
spec-described call (reference as single-reference corpus first, prediction
as hypothesis second). -/
theorem c5_counterexample_bleu_args :
    MoleculeSMILESEvaluator.bleuCall "P" "G" ≠ specBleuCall "P" "G" := by
  decide

/-- Claim C5 (amended): for every pair whose two sides normalize successfully,
the bleu metric invokes sentence_bleu with the normalized prediction as the
bare first (references-position) argument — not wrapped in a list — and the
normalized reference as the second (hypothesis-position) argument. -/
theorem c5_bleu_args_amended {Mol : Type} (o : Oracle Mol)
    (pr : String × String) (p g : String)
    (h1 : (MoleculeSMILESEvaluator.build_evaluate_tuple o pr.1 pr.2).1 = some p)
    (h2 : (MoleculeSMILESEvaluator.build_evaluate_tuple o pr.1 pr.2).2 = some g) :
    MoleculeSMILESEvaluator.pairScore o pr "bleu" =
      .ok (o.sentenceBleu (BleuArg.str p) g) ∧
    MoleculeSMILESEvaluator.bleuCall p g = (BleuArg.str p, g) := by
  refine ⟨?_, rfl⟩
  rw [pairScore_eq_scorePair o pr "bleu" p g h1 h2]
  simp [MoleculeSMILESEvaluator.scorePair, MoleculeSMILESEvaluator.bleuCall]

/-- Claim C5 amended witness: the amended statement holds at a concrete pair
that normalizes on both sides. -/
theorem c5_bleu_args_amended_witness :
    MoleculeSMILESEvaluator.pairScore testOracle ("ok", "ok") "bleu" =
      .ok (testOracle.sentenceBleu (BleuArg.str "C") "C") ∧
    MoleculeSMILESEvaluator.bleuCall "C" "C" = (BleuArg.str "C", "C") :=
  c5_bleu_args_amended testOracle ("ok", "ok") "C" "C" (by decide) (by decide)

/-- Claim C6: `build_evaluate_tuple` processes the two sides independently and
componentwise — each component is canonicalize(decode(side)), the value of one
side does not depend on the other input, and a side is null exactly when its
decode fails or its decoded string fails to parse. -/
theorem c6_componentwise {Mol : Type} (o : Oracle Mol) (pred gt : String) :
    MoleculeSMILESEvaluator.build_evaluate_tuple o pred gt =
      (MoleculeSMILESEvaluator.convert_to_canonical_smiles o
         (MoleculeSMILESEvaluator.sf_encode o pred),
       MoleculeSMILESEvaluator.convert_to_canonical_smiles o
         (MoleculeSMILESEvaluator.sf_encode o gt)) ∧
    (∀ gt2, (MoleculeSMILESEvaluator.build_evaluate_tuple o pred gt2).1 =
      (MoleculeSMILESEvaluator.build_evaluate_tuple o pred gt).1) ∧
    (∀ pred2, (MoleculeSMILESEvaluator.build_evaluate_tuple o pred2 gt).2 =
      (MoleculeSMILESEvaluator.build_evaluate_tuple o pred gt).2) ∧
    ((MoleculeSMILESEvaluator.build_evaluate_tuple o pred gt).1 = none ↔
      MoleculeSMILESEvaluator.sf_encode o pred = none ∨
      ∃ s, MoleculeSMILESEvaluator.sf_encode o pred = some s ∧
        o.molFromSmiles s = none) := by
  refine ⟨rfl, fun gt2 => rfl, fun pred2 => rfl, ?_⟩
  cases hx : MoleculeSMILESEvaluator.sf_encode o pred with
  | none =>
    simp [MoleculeSMILESEvaluator.build_evaluate_tuple,
      MoleculeSMILESEvaluator.convert_to_canonical_smiles, hx]
  | some s =>
    cases hm : o.molFromSmiles s with
    | none =>
      simp [MoleculeSMILESEvaluator.build_evaluate_tuple,
        MoleculeSMILESEvaluator.convert_to_canonical_smiles, hx, hm]
    | some mol =>
      simp [MoleculeSMILESEvaluator.build_evaluate_tuple,
        MoleculeSMILESEvaluator.convert_to_canonical_smiles, hx, hm]

/-- Claim C7: `MoleculeCaptionEvaluator.evaluate` has no null guard and no
defensive catching: normalization is the identity, and when some metric
function raises on some pair the exception propagates — the call returns no
partial table. -/
theorem c7_caption_propagates (o : CaptionOracle) (preds refs ms : List String)
    (herr : ∃ pr ∈ preds.zip refs, ∃ m ∈ ms,
      exOk (MoleculeCaptionEvaluator.pairScore o pr m) = false) :
    (∀ pred gt, MoleculeCaptionEvaluator.build_evaluate_tuple pred gt = (pred, gt)) ∧
    (∃ e, MoleculeCaptionEvaluator.evaluate o preds refs (some ms) = .error e) ∧
    (∀ t, MoleculeCaptionEvaluator.evaluate o preds refs (some ms) ≠ .ok t) := by
  obtain ⟨e, he⟩ := evalLoop_error (MoleculeCaptionEvaluator.pairScore o) ms
    (preds.zip refs) (emptyResults ms) herr
  have he2 : MoleculeCaptionEvaluator.evaluate o preds refs (some ms) =
      .error e := he
  refine ⟨fun _ _ => rfl, ⟨e, he2⟩, ?_⟩
  intro t ht
  rw [he2] at ht
  simp at ht

/-- Claim C8: with unequal input lengths, `evaluate` (on either evaluator)
silently scores only the zipped prefix of min(len predictions, len references)
pairs: no error is raised and every requested metric list has the truncated
length.  (As elsewhere, the scored pairs are assumed to raise no library
exception.) -/
theorem c8_truncation :
    (∀ {Mol : Type} (o : Oracle Mol) (preds refs ms : List String),
      preds.length ≠ refs.length → ms.Nodup →
      (∀ pr ∈ preds.zip refs, ∀ m ∈ ms,
        exOk (MoleculeSMILESEvaluator.pairScore o pr m) = true) →
      MoleculeSMILESEvaluator.evaluate o preds refs (some ms) =
        .ok (runTable (MoleculeSMILESEvaluator.pairScore o) ms (preds.zip refs)) ∧
      ∀ k ∈ ms, ∃ col,
        lookupKey (runTable (MoleculeSMILESEvaluator.pairScore o) ms
          (preds.zip refs)) k = some col ∧
        col = (preds.zip refs).map
          (fun pr => scoreD (MoleculeSMILESEvaluator.pairScore o pr k)) ∧
        col.length = min preds.length refs.length) ∧
    (∀ (o : CaptionOracle) (preds refs ms : List String),
      preds.length ≠ refs.length → ms.Nodup →
      (∀ pr ∈ preds.zip refs, ∀ m ∈ ms,
        exOk (MoleculeCaptionEvaluator.pairScore o pr m) = true) →
      MoleculeCaptionEvaluator.evaluate o preds refs (some ms) =
        .ok (runTable (MoleculeCaptionEvaluator.pairScore o) ms (preds.zip refs)) ∧
      ∀ k ∈ ms, ∃ col,
        lookupKey (runTable (MoleculeCaptionEvaluator.pairScore o) ms
          (preds.zip refs)) k = some col ∧
        col = (preds.zip refs).map
          (fun pr => scoreD (MoleculeCaptionEvaluator.pairScore o pr k)) ∧
        col.length = min preds.length refs.length) := by
  constructor
  · intro Mol o preds refs ms hne hnd hok
    refine ⟨smiles_evaluate_ok o preds refs ms hok, ?_⟩
    intro k hk
    refine ⟨(preds.zip refs).map
      (fun pr => scoreD (MoleculeSMILESEvaluator.pairScore o pr k)), ?_, rfl, ?_⟩
    · rw [lookupKey_runTable, if_pos hk,
        scoreColumn_of_nodup (MoleculeSMILESEvaluator.pairScore o) ms k
          (preds.zip refs) hnd hk]
    · simp [List.length_zip]
  · intro o preds refs ms hne hnd hok
    refine ⟨caption_evaluate_ok o preds refs ms hok, ?_⟩
    intro k hk
    refine ⟨(preds.zip refs).map
      (fun pr => scoreD (MoleculeCaptionEvaluator.pairScore o pr k)), ?_, rfl, ?_⟩
    · rw [lookupKey_runTable, if_pos hk,
        scoreColumn_of_nodup (MoleculeCaptionEvaluator.pairScore o) ms k
          (preds.zip refs) hnd hk]
    · simp [List.length_zip]

/-- Claim C9: when the metrics list contains the same metric name k more than
once, the returned mapping (on either evaluator) still has a single key for
that name, its keys are exactly the distinct requested names, and the score
list under the duplicated name receives one entry per occurrence per pair —
length (count k) * (number of pairs), different from the number of pairs on
non-empty input. -/
theorem c9_duplicate_metrics :
    (∀ {Mol : Type} (o : Oracle Mol) (preds refs ms : List String) (k : String),
      1 < ms.count k →
      (∀ pr ∈ preds.zip refs, ∀ m ∈ ms,
        exOk (MoleculeSMILESEvaluator.pairScore o pr m) = true) →
      MoleculeSMILESEvaluator.evaluate o preds refs (some ms) =
        .ok (runTable (MoleculeSMILESEvaluator.pairScore o) ms (preds.zip refs)) ∧
      ((runTable (MoleculeSMILESEvaluator.pairScore o) ms
        (preds.zip refs)).map Prod.fst).Nodup ∧
      (∀ k2, k2 ∈ (runTable (MoleculeSMILESEvaluator.pairScore o) ms
        (preds.zip refs)).map Prod.fst ↔ k2 ∈ ms) ∧
      ∃ col,
        lookupKey (runTable (MoleculeSMILESEvaluator.pairScore o) ms
          (preds.zip refs)) k = some col ∧
        col.length = ms.count k * (preds.zip refs).length ∧
        (preds.zip refs ≠ [] → col.length ≠ (preds.zip refs).length)) ∧
    (∀ (o : CaptionOracle) (preds refs ms : List String) (k : String),
      1 < ms.count k →
      (∀ pr ∈ preds.zip refs, ∀ m ∈ ms,
        exOk (MoleculeCaptionEvaluator.pairScore o pr m) = true) →
      MoleculeCaptionEvaluator.evaluate o preds refs (some ms) =
        .ok (runTable (MoleculeCaptionEvaluator.pairScore o) ms (preds.zip refs)) ∧
      ((runTable (MoleculeCaptionEvaluator.pairScore o) ms
        (preds.zip refs)).map Prod.fst).Nodup ∧
      (∀ k2, k2 ∈ (runTable (MoleculeCaptionEvaluator.pairScore o) ms
        (preds.zip refs)).map Prod.fst ↔ k2 ∈ ms) ∧
      ∃ col,
        lookupKey (runTable (MoleculeCaptionEvaluator.pairScore o) ms
          (preds.zip refs)) k = some col ∧
        col.length = ms.count k * (preds.zip refs).length ∧
        (preds.zip refs ≠ [] → col.length ≠ (preds.zip refs).length)) := by
  constructor
  · intro Mol o preds refs ms k hcount hok
    have hk : k ∈ ms := List.count_pos_iff.mp (by omega)
    refine ⟨smiles_evaluate_ok o preds refs ms hok, ?_, ?_, ?_⟩
    · rw [keys_runTable]; exact nodup_dedupFirst ms
    · intro k2; rw [keys_runTable]; exact mem_dedupFirst ms k2
    · refine ⟨scoreColumn (MoleculeSMILESEvaluator.pairScore o) ms k
        (preds.zip refs), ?_, ?_, ?_⟩
      · rw [lookupKey_runTable, if_pos hk]
      · rw [scoreColumn_length]
      · intro hne heq
        rw [scoreColumn_length] at heq
        have hlp : 0 < (preds.zip refs).length := List.length_pos.mpr hne
        have h2 : 2 * (preds.zip refs).length ≤ ms.count k * (preds.zip refs).length :=
          Nat.mul_le_mul_right _ hcount
        rw [heq] at h2
        omega
  · intro o preds refs ms k hcount hok
    have hk : k ∈ ms := List.count_pos_iff.mp (by omega)
    refine ⟨caption_evaluate_ok o preds refs ms hok, ?_, ?_, ?_⟩
    · rw [keys_runTable]; exact nodup_dedupFirst ms
    · intro k2; rw [keys_runTable]; exact mem_dedupFirst ms k2
    · refine ⟨scoreColumn (MoleculeCaptionEvaluator.pairScore o) ms k
        (preds.zip refs), ?_, ?_, ?_⟩
      · rw [lookupKey_runTable, if_pos hk]
      · rw [scoreColumn_length]
      · intro hne heq
        rw [scoreColumn_length] at heq
        have hlp : 0 < (preds.zip refs).length := List.length_pos.mpr hne
        have h2 : 2 * (preds.zip refs).length ≤ ms.count k * (preds.zip refs).length :=
          Nat.mul_le_mul_right _ hcount
        rw [heq] at h2
        omega

/-- Claim C10: an unknown metric name in the metrics list of
`MoleculeSMILESEvaluator.evaluate` yields 0 for every pair that fails
normalization on either side — in particular, when all pairs fail to
normalize the unknown name gets an all-zero score list and no error — but the
call raises KeyError as soon as some pair normalizes successfully on both
sides (all other requested metrics scoring without exception). -/
theorem c10_unknown_metric :
    (∀ {Mol : Type} (o : Oracle Mol) (name : String) (preds refs ms : List String),
      name ∉ MoleculeSMILESEvaluator.metricKeys → name ∈ ms →
      (∀ pr ∈ preds.zip refs,
        (MoleculeSMILESEvaluator.build_evaluate_tuple o pr.1 pr.2).1 = none ∨
        (MoleculeSMILESEvaluator.build_evaluate_tuple o pr.1 pr.2).2 = none) →
      MoleculeSMILESEvaluator.evaluate o preds refs (some ms) =
        .ok (runTable (MoleculeSMILESEvaluator.pairScore o) ms (preds.zip refs)) ∧
      lookupKey (runTable (MoleculeSMILESEvaluator.pairScore o) ms
        (preds.zip refs)) name =
        some (List.replicate (ms.count name * (preds.zip refs).length) 0)) ∧
    (∀ {Mol : Type} (o : Oracle Mol) (name : String) (preds refs ms : List String),
      name ∉ MoleculeSMILESEvaluator.metricKeys → name ∈ ms →
      (∀ pr ∈ preds.zip refs, ∀ m ∈ ms, m ≠ name →
        exOk (MoleculeSMILESEvaluator.pairScore o pr m) = true) →
      (∃ pr ∈ preds.zip refs,
        (MoleculeSMILESEvaluator.build_evaluate_tuple o pr.1 pr.2).1.isSome = true ∧
        (MoleculeSMILESEvaluator.build_evaluate_tuple o pr.1 pr.2).2.isSome = true) →
      MoleculeSMILESEvaluator.evaluate o preds refs (some ms) =
        .error (.keyError name)) := by
  constructor
  · intro Mol o name preds refs ms hname hmem hfail
    have hzero : ∀ pr ∈ preds.zip refs, ∀ m : String,
        MoleculeSMILESEvaluator.pairScore o pr m = .ok 0 :=
      fun pr hpr m => pairScore_null o pr m (hfail pr hpr)
    have hall : ∀ pr ∈ preds.zip refs, ∀ m ∈ ms,
        exOk (MoleculeSMILESEvaluator.pairScore o pr m) = true := by
      intro pr hpr m _
      rw [hzero pr hpr m]; rfl
    refine ⟨smiles_evaluate_ok o preds refs ms hall, ?_⟩
    rw [lookupKey_runTable, if_pos hmem,
      scoreColumn_all_zero (MoleculeSMILESEvaluator.pairScore o) ms name
        (preds.zip refs) (fun pr hpr => hzero pr hpr name)]
  · intro Mol o name preds refs ms hname hmem hok hex
    have hcase : ∀ pr ∈ preds.zip refs,
        MoleculeSMILESEvaluator.pairScore o pr name = .ok 0 ∨
        MoleculeSMILESEvaluator.pairScore o pr name = .error (.keyError name) := by
      intro pr _
      rcases hb1 : (MoleculeSMILESEvaluator.build_evaluate_tuple o pr.1 pr.2).1 with _ | p
      · exact Or.inl (pairScore_null o pr name (Or.inl hb1))
      rcases hb2 : (MoleculeSMILESEvaluator.build_evaluate_tuple o pr.1 pr.2).2 with _ | g
      · exact Or.inl (pairScore_null o pr name (Or.inr hb2))
      exact Or.inr (pairScore_unknown o pr name hname p g hb1 hb2)
    have hex2 : ∃ pr ∈ preds.zip refs,
        MoleculeSMILESEvaluator.pairScore o pr name = .error (.keyError name) := by
      obtain ⟨pr, hpr, hs1, hs2⟩ := hex
      obtain ⟨p, hp⟩ := Option.isSome_iff_exists.mp hs1
      obtain ⟨g, hg⟩ := Option.isSome_iff_exists.mp hs2
      exact ⟨pr, hpr, pairScore_unknown o pr name hname p g hp hg⟩
    exact evalLoop_error_name (MoleculeSMILESEvaluator.pairScore o) name
      (.keyError name) ms (preds.zip refs) hok hcase hmem hex2 (emptyResults ms)

/-- Claim C1 witness: concrete run where the first pair fails to decode and
the second normalizes. -/
theorem c1_witness :
    MoleculeSMILESEvaluator.evaluate testOracle ["bad", "ok"] ["ok", "ok"]
      (some ["validity", "bleu"]) =
      .ok (runTable (MoleculeSMILESEvaluator.pairScore testOracle)
        ["validity", "bleu"] (["bad", "ok"].zip ["ok", "ok"])) ∧
    ∀ k ∈ ["validity", "bleu"], ∃ col,
      lookupKey (runTable (MoleculeSMILESEvaluator.pairScore testOracle)
        ["validity", "bleu"] (["bad", "ok"].zip ["ok", "ok"])) k = some col ∧
      col.length = (["bad", "ok"].zip ["ok", "ok"]).length ∧
      ∀ (i : ℕ) (hi : i < (["bad", "ok"].zip ["ok", "ok"]).length)
        (hci : i < col.length),
        ((MoleculeSMILESEvaluator.build_evaluate_tuple testOracle
            ((["bad", "ok"].zip ["ok", "ok"])[i]).1
            ((["bad", "ok"].zip ["ok", "ok"])[i]).2).1 = none ∨
         (MoleculeSMILESEvaluator.build_evaluate_tuple testOracle
            ((["bad", "ok"].zip ["ok", "ok"])[i]).1
            ((["bad", "ok"].zip ["ok", "ok"])[i]).2).2 = none) →
        col[i] = 0 :=
  c1_null_pairs_score_zero testOracle ["bad", "ok"] ["ok", "ok"]
    ["validity", "bleu"] (by decide) (by decide)

/-- Claim C2 witness: concrete equal-length runs on both evaluators with the
default metric lists. -/
theorem c2_witness :
    (MoleculeSMILESEvaluator.evaluate testOracle ["ok"] ["ok"]
        (some MoleculeSMILESEvaluator.defaultMetrics) =
      .ok (runTable (MoleculeSMILESEvaluator.pairScore testOracle)
        MoleculeSMILESEvaluator.defaultMetrics (["ok"].zip ["ok"])) ∧
      ∀ k ∈ MoleculeSMILESEvaluator.defaultMetrics,
        lookupKey (runTable (MoleculeSMILESEvaluator.pairScore testOracle)
          MoleculeSMILESEvaluator.defaultMetrics (["ok"].zip ["ok"])) k =
          some ((["ok"].zip ["ok"]).map
            (fun pr => scoreD (MoleculeSMILESEvaluator.pairScore testOracle pr k))) ∧
        ((["ok"].zip ["ok"]).map
          (fun pr => scoreD (MoleculeSMILESEvaluator.pairScore testOracle pr k))).length =
          (["ok"] : List String).length) ∧
    (MoleculeCaptionEvaluator.evaluate testCapOracle ["a"] ["r"]
        (some MoleculeCaptionEvaluator.defaultMetrics) =
      .ok (runTable (MoleculeCaptionEvaluator.pairScore testCapOracle)
        MoleculeCaptionEvaluator.defaultMetrics (["a"].zip ["r"])) ∧
      ∀ k ∈ MoleculeCaptionEvaluator.defaultMetrics,
        lookupKey (runTable (MoleculeCaptionEvaluator.pairScore testCapOracle)
          MoleculeCaptionEvaluator.defaultMetrics (["a"].zip ["r"])) k =
          some ((["a"].zip ["r"]).map
            (fun pr => scoreD (MoleculeCaptionEvaluator.pairScore testCapOracle pr k))) ∧
        ((["a"].zip ["r"]).map
          (fun pr => scoreD (MoleculeCaptionEvaluator.pairScore testCapOracle pr k))).length =
          (["a"] : List String).length) :=
  ⟨c2_table_lengths.1 testOracle ["ok"] ["ok"]
      MoleculeSMILESEvaluator.defaultMetrics
      (by decide) (by decide) (by decide) (by decide),
   c2_table_lengths.2 testCapOracle ["a"] ["r"]
      MoleculeCaptionEvaluator.defaultMetrics
      (by decide) (by decide) (by decide) (by decide)⟩

/-- Claim C3 witness: the round-trip contract holds for the concrete oracle
and the default-metric evaluation returns a full table. -/
theorem c3_witness :
    MoleculeSMILESEvaluator.evaluate testOracle ["bad"] ["ok"] none =
      .ok (runTable (MoleculeSMILESEvaluator.pairScore testOracle)
        MoleculeSMILESEvaluator.defaultMetrics (["bad"].zip ["ok"])) ∧
    ∀ k ∈ MoleculeSMILESEvaluator.defaultMetrics, ∃ col,
      lookupKey (runTable (MoleculeSMILESEvaluator.pairScore testOracle)
        MoleculeSMILESEvaluator.defaultMetrics (["bad"].zip ["ok"])) k = some col ∧
      col.length = (["bad"].zip ["ok"]).length :=
  c3_no_exception_default testOracle (by intro m; cases m; decide) ["bad"] ["ok"]

/-- Claim C7 witness: a raising metric function aborts the concrete caption
evaluation with no partial table. -/
theorem c7_witness :
    (∀ pred gt, MoleculeCaptionEvaluator.build_evaluate_tuple pred gt = (pred, gt)) ∧
    (∃ e, MoleculeCaptionEvaluator.evaluate badCapOracle ["p"] ["r"]
      (some ["meteor"]) = .error e) ∧
    (∀ t, MoleculeCaptionEvaluator.evaluate badCapOracle ["p"] ["r"]
      (some ["meteor"]) ≠ .ok t) :=
  c7_caption_propagates badCapOracle ["p"] ["r"] ["meteor"] (by decide)

/-- Claim C8 witness: concrete unequal-length runs on both evaluators. -/
theorem c8_witness :
    (MoleculeSMILESEvaluator.evaluate testOracle ["ok", "ok2"] ["ok"]
        (some ["validity"]) =
      .ok (runTable (MoleculeSMILESEvaluator.pairScore testOracle)
        ["validity"] (["ok", "ok2"].zip ["ok"])) ∧
      ∀ k ∈ ["validity"], ∃ col,
        lookupKey (runTable (MoleculeSMILESEvaluator.pairScore testOracle)
          ["validity"] (["ok", "ok2"].zip ["ok"])) k = some col ∧
        col = (["ok", "ok2"].zip ["ok"]).map
          (fun pr => scoreD (MoleculeSMILESEvaluator.pairScore testOracle pr k)) ∧
        col.length = min (["ok", "ok2"] : List String).length
          (["ok"] : List String).length) ∧
    (MoleculeCaptionEvaluator.evaluate testCapOracle ["a", "b"] ["r"]
        (some ["meteor"]) =
      .ok (runTable (MoleculeCaptionEvaluator.pairScore testCapOracle)
        ["meteor"] (["a", "b"].zip ["r"])) ∧
      ∀ k ∈ ["meteor"], ∃ col,
        lookupKey (runTable (MoleculeCaptionEvaluator.pairScore testCapOracle)
          ["meteor"] (["a", "b"].zip ["r"])) k = some col ∧
        col = (["a", "b"].zip ["r"]).map
          (fun pr => scoreD (MoleculeCaptionEvaluator.pairScore testCapOracle pr k)) ∧
        col.length = min (["a", "b"] : List String).length
          (["r"] : List String).length) :=
  ⟨c8_truncation.1 testOracle ["ok", "ok2"] ["ok"] ["validity"]
      (by decide) (by decide) (by decide),
   c8_truncation.2 testCapOracle ["a", "b"] ["r"] ["meteor"]
      (by decide) (by decide) (by decide)⟩

/-- Claim C9 witness: concrete runs with a duplicated metric name on both
evaluators. -/
theorem c9_witness :
    (MoleculeSMILESEvaluator.evaluate testOracle ["ok"] ["ok"]
        (some ["validity", "validity"]) =
      .ok (runTable (MoleculeSMILESEvaluator.pairScore testOracle)
        ["validity", "validity"] (["ok"].zip ["ok"])) ∧
      ((runTable (MoleculeSMILESEvaluator.pairScore testOracle)
        ["validity", "validity"] (["ok"].zip ["ok"])).map Prod.fst).Nodup ∧
      (∀ k2, k2 ∈ (runTable (MoleculeSMILESEvaluator.pairScore testOracle)
        ["validity", "validity"] (["ok"].zip ["ok"])).map Prod.fst ↔
        k2 ∈ ["validity", "validity"]) ∧
      ∃ col,
        lookupKey (runTable (MoleculeSMILESEvaluator.pairScore testOracle)
          ["validity", "validity"] (["ok"].zip ["ok"])) "validity" = some col ∧
        col.length = (["validity", "validity"].count "validity") *
          (["ok"].zip ["ok"]).length ∧
        (["ok"].zip ["ok"] ≠ [] → col.length ≠ (["ok"].zip ["ok"]).length)) ∧
    (MoleculeCaptionEvaluator.evaluate testCapOracle ["a"] ["r"]
        (some ["meteor", "meteor"]) =
      .ok (runTable (MoleculeCaptionEvaluator.pairScore testCapOracle)
        ["meteor", "meteor"] (["a"].zip ["r"])) ∧
      ((runTable (MoleculeCaptionEvaluator.pairScore testCapOracle)
        ["meteor", "meteor"] (["a"].zip ["r"])).map Prod.fst).Nodup ∧
      (∀ k2, k2 ∈ (runTable (MoleculeCaptionEvaluator.pairScore testCapOracle)
        ["meteor", "meteor"] (["a"].zip ["r"])).map Prod.fst ↔
        k2 ∈ ["meteor", "meteor"]) ∧
      ∃ col,
        lookupKey (runTable (MoleculeCaptionEvaluator.pairScore testCapOracle)
          ["meteor", "meteor"] (["a"].zip ["r"])) "meteor" = some col ∧
        col.length = (["meteor", "meteor"].count "meteor") *
          (["a"].zip ["r"]).length ∧
        (["a"].zip ["r"] ≠ [] → col.length ≠ (["a"].zip ["r"]).length)) :=
  ⟨c9_duplicate_metrics.1 testOracle ["ok"] ["ok"] ["validity", "validity"]
      "validity" (by decide) (by decide),
   c9_duplicate_metrics.2 testCapOracle ["a"] ["r"] ["meteor", "meteor"]
      "meteor" (by decide) (by decide)⟩

/-- Claim C10 witness: with the unknown metric name "foo", an all-failing run
returns an all-zero column and a run containing a normalizing pair raises
KeyError. -/
theorem c10_witness :
    (MoleculeSMILESEvaluator.evaluate testOracle ["bad"] ["ok"] (some ["foo"]) =
      .ok (runTable (MoleculeSMILESEvaluator.pairScore testOracle) ["foo"]
        (["bad"].zip ["ok"])) ∧
      lookupKey (runTable (MoleculeSMILESEvaluator.pairScore testOracle) ["foo"]
        (["bad"].zip ["ok"])) "foo" =
        some (List.replicate ((["foo"].count "foo") * (["bad"].zip ["ok"]).length) 0)) ∧
    MoleculeSMILESEvaluator.evaluate testOracle ["ok"] ["ok"] (some ["foo"]) =
      .error (.keyError "foo") :=
  ⟨c10_unknown_metric.1 testOracle "foo" ["bad"] ["ok"] ["foo"]
      (by decide) (by decide) (by decide),
   c10_unknown_metric.2 testOracle "foo" ["ok"] ["ok"] ["foo"]
      (by decide) (by decide) (by decide) (by decide)⟩
